import Mathlib

/-!
Verification of the notion-astro-loader core (src/render.ts and src/format.ts)
against its natural-language specification.

The TypeScript source is shallowly embedded: pure functions become Lean
functions, the stateful asset cache becomes explicit state passing over `St`
(on-disk files, network requests performed, collected image paths), async
I/O becomes an environment function `Net` mapping a URL to the response the
network would give, fallible code returns `Except String`, and possible
divergence (the unbounded redirect recursion in `downloadImage`) is made
visible with a fuel parameter: a result of `none` means the recursion did
not finish within the given fuel, for any fuel.
-/

/-! ## String helpers: URL pathname and Node path.extname

`downloadImage` uses `new URL(url).pathname` and `path.extname`; these model
exactly the slices of those external functions the source relies on. -/

/-- Drop everything up to and including the first "//" of a URL, leaving
host, path, query and fragment. -/
def dropThroughSlashSlash : List Char → List Char
  | [] => []
  | '/' :: '/' :: rest => rest
  | _ :: rest => dropThroughSlashSlash rest

/-- The pathname component of a URL: after scheme and host, before query and
fragment, defaulting to "/" as `new URL(...).pathname` does. -/
def urlPathname (url : String) : String :=
  let rest := dropThroughSlashSlash url.toList
  let p := (rest.dropWhile (fun c => c ≠ '/')).takeWhile (fun c => c ≠ '?' ∧ c ≠ '#')
  if p = [] then "/" else String.mk p

/-- The basename: characters after the last '/'. -/
def afterLastSlash (l : List Char) : List Char :=
  (l.reverse.takeWhile (fun c => c ≠ '/')).reverse

/-- Node `path.extname` on the basename: the suffix from the last '.',
empty when there is no dot or the only dot starts the basename. -/
def extnameChars (b : List Char) : List Char :=
  let afterRev := b.reverse.takeWhile (fun c => c ≠ '.')
  if afterRev.length = b.length then []
  else if afterRev.length + 1 = b.length then []
  else '.' :: afterRev.reverse

/-- Node `path.extname` of a path. -/
def extname (p : String) : String :=
  String.mk (extnameChars (afterLastSlash p.toList))

/-! ## format.ts -/

/-- One item of a Notion rich-text list; only `plain_text` is read. -/
structure RichTextItem where
  plain_text : String
deriving DecidableEq

/-- Source: `data.map((text) => text.plain_text).join("")`; `join("")`
is `String.join`. -/
def richTextToPlainText (data : List RichTextItem) : String :=
  String.join (data.map (fun text => text.plain_text))

/-- A Notion file object: Notion-hosted (`"file"`) or `"external"`,
each carrying a URL. -/
inductive FileObject where
  | file (url : String)
  | external (url : String)
deriving DecidableEq

/-- The JS `type` tag string of a file object. -/
def FileObject.typeTag : FileObject → String
  | .file _ => "file"
  | .external _ => "external"

/-- Source `fileToUrl`: extract the URL from a file object. The source
returns `undefined` on `null` or unknown shapes; the embedded `FileObject`
has exactly the two shapes of the TS type, so this is total. -/
def fileToUrl : FileObject → String
  | .external url => url
  | .file url => url

/-- State threaded through the asset cache: filenames present in the cache
directory, URLs for which an HTTP request was issued (in order), and the
renderer's accumulated `#imagePaths`. -/
structure St where
  disk : List String
  downloads : List String
  imagePaths : List String
deriving DecidableEq

/-- What the network answers for a URL: a 301/302 with a Location, a 200
streamed and written successfully, a non-200 status, a request error, or a
write-stream error (after which the partial file is unlinked). -/
inductive Resp where
  | redirect (loc : String)
  | okResp
  | badStatus (code : Nat)
  | netErr (msg : String)
  | writeErr (msg : String)
deriving DecidableEq

/-- The network/filesystem environment: the response each URL gets. -/
def Net : Type := String → Resp

/-- Filename derived in `downloadImage`:
`crypto.createHash('md5').update(url).digest('hex')` concatenated with
`path.extname(new URL(url).pathname) || '.jpg'`. The md5 digest is an
external library call; it is abstracted as the `hash` parameter, of which
the source uses nothing beyond it being a function of the URL string. -/
def filenameOf (hash : String → String) (url : String) : String :=
  hash url ++ (let e := extname (urlPathname url); if e = "" then ".jpg" else e)

/-- Public path exposed for a cached filename: `/notion-images/{filename}`. -/
def publicPathOf (filename : String) : String :=
  "/notion-images/" ++ filename

/-- Source `downloadImage`. Checks the cache first and returns the public
path with no request when the file exists; otherwise issues the request
(recorded in `downloads`); a 301/302 recurses on the Location URL with no
depth counter in the source — the fuel argument only makes that unbounded
recursion representable, `none` meaning it did not finish within `fuel`
redirect hops; a 200 writes the file and exposes the path; any failure
leaves no partial file behind. -/
def downloadImage (hash : String → String) (env : Net) :
    Nat → String → St → Option (St × Except String String)
  | fuel, url, s =>
    let filename := filenameOf hash url
    if filename ∈ s.disk then some (s, .ok (publicPathOf filename))
    else
      let s1 : St := { s with downloads := s.downloads ++ [url] }
      match env url with
      | .redirect loc =>
        match fuel with
        | 0 => none
        | n + 1 => downloadImage hash env n loc s1
      | .okResp => some ({ s1 with disk := s1.disk ++ [filename] },
          .ok (publicPathOf filename))
      | .badStatus c => some (s1, .error ("Failed to download image: HTTP " ++ toString c))
      | .netErr m => some (s1, .error m)
      | .writeErr m => some (s1, .error m)

/-- Does the redirect chain from a URL reach a non-redirect response within
the given number of hops? -/
def chainTerminates (env : Net) : Nat → String → Bool
  | 0, url =>
    match env url with
    | .redirect _ => false
    | _ => true
  | n + 1, url =>
    match env url with
    | .redirect loc => chainTerminates env n loc
    | _ => true

/-- Source `fileToImageAsset`: extract the URL (total on the embedded
`FileObject`) and download, wrapping the local path as the asset `src`. -/
def fileToImageAsset (hash : String → String) (env : Net) (fuel : Nat)
    (file : FileObject) (s : St) : Option (St × Except String String) :=
  downloadImage hash env fuel (fileToUrl file) s

/-! ## TOC extraction (render.ts `extractTocHeadings`) -/

/-- Astro `MarkdownHeading`. -/
structure MarkdownHeading where
  depth : Nat
  text : String
  slug : String
deriving DecidableEq

/-- One `li` of the rehype-toc outline: a heading link (its text-node
values and its `href`) optionally followed by one nested sublist. -/
inductive LItem where
  | mkI (texts : List String) (href : String) (sub : Option (List LItem))

/-- Source inner `listElementToTree`: flatMap each item to its own heading
(text is the link's first text child, slug is `href.slice(1)`) followed by
the flattening of its sublist at `depth + 1`. The source indexes
`link.children![0]` unchecked; `headD` stands for that read and is only
relied on when the text list is nonempty. -/
def listElementToTree : List LItem → Nat → List MarkdownHeading
  | [], _ => []
  | .mkI texts href sub :: rest, depth =>
    ({ depth := depth, text := texts.headD "", slug := href.drop 1 } ::
      (match sub with
       | none => []
       | some l => listElementToTree l (depth + 1))) ++ listElementToTree rest depth

/-- The `nav` element handed to `customizeTOC`: its tag and its element
children, each an `ol` holding list items. -/
structure TocNav where
  tagName : String
  children : List (List LItem)

/-- Source `extractTocHeadings`: requires a `nav` root (else throws, here
`Except.error`) and flattens its first child list at depth 0. -/
def extractTocHeadings (toc : TocNav) : Except String (List MarkdownHeading) :=
  if toc.tagName ≠ "nav" then .error ("Expected nav, got " ++ toc.tagName)
  else .ok (listElementToTree (toc.children.headD []) 0)

/-! ## Block tree materialization (render.ts `listBlocks`)

`iteratePaginatedAPI` yields the records of every pagination page under a
parent in received order; the record stream under one parent is embedded as
the `children` list of that parent. A record is either only partially
resolved (`isFullBlock` false — skipped by the source) or a full block. -/

/-- A callout icon: hosted file, external file, or emoji. Only a
`type === "file"` icon is rewritten by the source. -/
inductive Icon where
  | fileIcon (url : String)
  | externalIcon (url : String)
  | emoji (value : String)
deriving DecidableEq

/-- Type-specific payload of a full raw block, covering the variants
`listBlocks` dispatches on, plus the catch-all for every other type. -/
inductive RawPayload where
  | image (f : FileObject) (caption : List String)
  | file (f : FileObject) (caption : List String)
  | video (f : FileObject) (caption : List String)
  | pdf (f : FileObject) (caption : List String)
  | callout (icon : Option Icon) (body : List String)
  | other (tag : String) (payloadData : String)
deriving DecidableEq

/-- A record returned by the paginated children-listing API: not fully
resolved, or a full block with its id, `has_children` flag, payload, and
the records the API returns under its id. -/
inductive RawRecord where
  | notFull (id : String)
  | fullRec (id : String) (hasChildren : Bool) (payload : RawPayload)
      (children : List RawRecord)

mutual

/-- A materialized block payload as yielded by `listBlocks`. The reshaping
arms of the source build a fresh payload `{ type, [type]: string, caption }`,
so those variants carry the `type` tag string and a plain URL-or-path string
and lose any attached children; the pass-through arms keep the original
payload object, on which children were attached in place. -/
inductive OutPayload where
  | imageStr (t : String) (ref : String) (caption : List String)
  | fileStr (t : String) (ref : String) (caption : List String)
  | fileObj (f : FileObject) (caption : List String) (children : List OutBlock)
  | videoStr (t : String) (ref : String) (caption : List String)
  | pdfStr (t : String) (ref : String) (caption : List String)
  | calloutP (icon : Option Icon) (body : List String) (children : List OutBlock)
  | otherP (tag : String) (payloadData : String) (children : List OutBlock)

/-- A block yielded by `listBlocks`: id, `has_children`, payload. -/
inductive OutBlock where
  | mk (id : String) (hasChildren : Bool) (payload : OutPayload)

end

/-- An asset-fetch callback as `listBlocks` receives it: a file object and
the current state give either divergence (`none`) or a new state and the
local path or a thrown error. -/
def Fetcher : Type :=
  FileObject → St → Option (St × Except String String)

/-- Source `/\.(jpe?g|png|gif|webp|svg|avif)$/i.test(fileUrl)`: the file
URL ends, case-insensitively, in a known image extension. -/
def isImageUrl (url : String) : Bool :=
  ["jpg", "jpeg", "png", "gif", "webp", "svg", "avif"].any
    (fun e => List.isSuffixOf ('.' :: e.toList) (url.toList.map Char.toLower))

/-- The per-block dispatch of `listBlocks` after children are attached:
image blocks fetch and are reshaped to the local path (a fetch throw
propagates); file blocks whose URL looks like an image fetch inside
try/catch and are reshaped — keeping the original URL when external, the
local path when hosted — and on a throw the original block is yielded;
video/pdf blocks are reshaped to their plain URL without fetching; a
callout with a hosted-file icon fetches inside try/catch and rewrites the
icon, keeping the original on a throw; everything else passes through. -/
def transformBlock (fi : Fetcher) (id : String) (hc : Bool) (payload : RawPayload)
    (kids : List OutBlock) (s1 : St) : Option (St × Except String (List OutBlock)) :=
  match payload with
  | .image f caption =>
    match fi f s1 with
    | none => none
    | some (s2, .ok p) =>
      some (s2, .ok [.mk id hc (.imageStr f.typeTag p caption)])
    | some (s2, .error e) => some (s2, .error e)
  | .file f caption =>
    if isImageUrl (fileToUrl f) then
      match fi f s1 with
      | none => none
      | some (s2, .ok p) =>
        some (s2, .ok [.mk id hc (.fileStr f.typeTag
          (match f with
           | .external u => u
           | .file _ => p) caption)])
      | some (s2, .error _) => some (s2, .ok [.mk id hc (.fileObj f caption kids)])
    else some (s1, .ok [.mk id hc (.fileObj f caption kids)])
  | .video f caption => some (s1, .ok [.mk id hc (.videoStr f.typeTag (fileToUrl f) caption)])
  | .pdf f caption => some (s1, .ok [.mk id hc (.pdfStr f.typeTag (fileToUrl f) caption)])
  | .callout icon body =>
    match icon with
    | some (.fileIcon u) =>
      match fi (.file u) s1 with
      | none => none
      | some (s2, .ok p) =>
        some (s2, .ok [.mk id hc (.calloutP (some (.fileIcon p)) body kids)])
      | some (s2, .error _) => some (s2, .ok [.mk id hc (.calloutP icon body kids)])
    | _ => some (s1, .ok [.mk id hc (.calloutP icon body kids)])
  | .other tag payloadData => some (s1, .ok [.mk id hc (.otherP tag payloadData kids)])

mutual

/-- One record of the stream: a not-full record is skipped (continue);
a full block first materializes its children when `has_children` (an error
there propagates, uncaught), then runs the per-type dispatch. -/
def processRecord (fi : Fetcher) : RawRecord → St → Option (St × Except String (List OutBlock))
  | .notFull _, s => some (s, .ok [])
  | .fullRec id hc payload children, s =>
    match (if hc then listBlocks fi children s else some (s, .ok [])) with
    | none => none
    | some (s1, .error e) => some (s1, .error e)
    | some (s1, .ok kids) => transformBlock fi id hc payload kids s1

/-- Source `listBlocks` collected with `awaitAll`: process the records in
received order, concatenating what each yields; the first uncaught error
aborts the traversal. -/
def listBlocks (fi : Fetcher) : List RawRecord → St → Option (St × Except String (List OutBlock))
  | [], s => some (s, .ok [])
  | r :: rest, s =>
    match processRecord fi r s with
    | none => none
    | some (s1, .error e) => some (s1, .error e)
    | some (s1, .ok outs) =>
      match listBlocks fi rest s1 with
      | none => none
      | some (s2, .error e) => some (s2, .error e)
      | some (s2, .ok outRest) => some (s2, .ok (outs ++ outRest))

end

/-! ## Page rendering (render.ts `NotionPageRenderer`) -/

/-- The renderer's private `#fetchImage`: `fileToImageAsset` on success
appends the local path to `#imagePaths` and returns it; on a thrown error
it logs and falls back to the remote URL via `fileToUrl`, so it never
itself throws. -/
def fetchImageR (hash : String → String) (env : Net) (fuel : Nat) : Fetcher :=
  fun imageFileObject s =>
    match fileToImageAsset hash env fuel imageFileObject s with
    | none => none
    | some (s1, .ok src) =>
      some ({ s1 with imagePaths := s1.imagePaths ++ [src] }, .ok src)
    | some (s1, .error _) => some (s1, .ok (fileToUrl imageFileObject))

/-- The injected transformation pipeline (`buildProcessor` output): blocks
in, HTML string and extracted headings out, or a failure. -/
def Pipe : Type :=
  List OutBlock → Except String (String × List MarkdownHeading)

/-- Source `RenderedNotionEntry` (html plus its metadata record,
flattened). -/
structure RenderedNotionEntry where
  html : String
  headings : List MarkdownHeading
  imagePaths : List String
deriving DecidableEq

/-- Source `NotionPageRenderer.render`: materialize all blocks, run the
pipeline, and return html, headings and the accumulated image paths; the
whole body sits in one try/catch whose catch logs and returns `undefined`
(`none` in the inner Option). The outer `none` again means a diverging
download never resolved. -/
def renderPage (fi : Fetcher) (pipe : Pipe) (recs : List RawRecord) (s : St) :
    Option (St × Option RenderedNotionEntry) :=
  match listBlocks fi recs s with
  | none => none
  | some (s1, .error _) => some (s1, none)
  | some (s1, .ok blocks) =>
    match pipe blocks with
    | .error _ => some (s1, none)
    | .ok (html, headings) =>
      some (s1, some { html := html, headings := headings, imagePaths := s1.imagePaths })

/-! ## Structure-comparison helpers for the materialization claims -/

/-- An id-labelled tree: the skeleton of a block with its nested children. -/
inductive IdTree where
  | node (id : String) (kids : List IdTree)

/-- The skeleton the claim expects from materialization: exactly the full
records, in received order, each carrying the skeleton of the records the
API returns under it. -/
def rawSkel : List RawRecord → List IdTree
  | [] => []
  | .notFull _ :: rest => rawSkel rest
  | .fullRec id _ _ children :: rest => .node id (rawSkel children) :: rawSkel rest

mutual

/-- Skeleton of one yielded block: its id over the skeleton of the children
its yielded payload carries (the reshaped string payloads carry none). -/
def outSkelB : OutBlock → IdTree
  | .mk id _ (.fileObj _ _ kids) => .node id (outSkel kids)
  | .mk id _ (.calloutP _ _ kids) => .node id (outSkel kids)
  | .mk id _ (.otherP _ _ kids) => .node id (outSkel kids)
  | .mk id _ _ => .node id []

/-- Skeleton of a yielded block list. -/
def outSkel : List OutBlock → List IdTree
  | [] => []
  | b :: rest => outSkelB b :: outSkel rest

end

/-- Is the payload one of the media variants the source reshapes into a
fresh `{ type, [type]: string, caption }` object? -/
def isMediaP : RawPayload → Bool
  | .image _ _ => true
  | .file _ _ => true
  | .video _ _ => true
  | .pdf _ _ => true
  | _ => false

/-- Well-formedness of an API record stream, as the Notion API guarantees
it: media blocks (image, file, video, pdf) cannot have children, and a
block with `has_children = false` has no records under it. -/
def wfList : List RawRecord → Bool
  | [] => true
  | .notFull _ :: rest => wfList rest
  | .fullRec _ hc p children :: rest =>
    (!isMediaP p || children.isEmpty) && (hc || children.isEmpty) &&
      wfList children && wfList rest

/-- A fetcher that never throws: whenever it resolves, the result is a
path, not an error. -/
def FetcherOk (fi : Fetcher) : Prop :=
  ∀ obj s r, fi obj s = some r → ∃ s2 v, r = (s2, Except.ok v)

/-! ## Concrete instances used to instantiate theorems -/

/-- A concrete stand-in digest for instantiating hash-parametric results. -/
def h0 : String → String := fun _ => "d41d8cd98f"

/-- Environment where every request succeeds directly. -/
def envOk : Net := fun _ => .okResp

/-- Environment where every request fails at the socket. -/
def envFail : Net := fun _ => .netErr "socket hang up"

/-- Environment where every URL 302-redirects to itself. -/
def envLoop : Net := fun u => .redirect u

/-- Environment with one redirect hop onto a directly-served image. -/
def envHop : Net := fun u =>
  if u = "https://files.example/start" then .redirect "https://files.example/pic.png"
  else .okResp

/-- Empty starting state: empty cache directory, no requests, no paths. -/
def st0 : St := { disk := [], downloads := [], imagePaths := [] }

/-- The outline `H1 > [H2a, H2b > H3]` of the TOC flattening example. -/
def outline0 : TocNav :=
  { tagName := "nav"
    children := [[LItem.mkI ["H1"] "#h1" (some
      [LItem.mkI ["H2a"] "#h2a" none,
       LItem.mkI ["H2b"] "#h2b" (some [LItem.mkI ["H3"] "#h3" none])])]] }

/-- An image block record (Notion-hosted file, no children). -/
def recImg (id url : String) : RawRecord :=
  .fullRec id false (.image (.file url) []) []

/-- A file block record with an external image-looking URL. -/
def recFileExt (id url : String) : RawRecord :=
  .fullRec id false (.file (.external url) []) []

/-- A pipeline that always renders fixed output. -/
def pipe0 : Pipe := fun _ => .ok ("<page>", [])

/-- A pipeline that always fails. -/
def pipeBad : Pipe := fun _ => .error "pipeline failure"

/-- A fetcher that always resolves to one fixed local path. -/
def fiPure : Fetcher := fun _ s => some (s, .ok "/notion-images/w.png")

/-- A fetcher that always throws. -/
def fiBad : Fetcher := fun _ s => some (s, .error "boom")

/-! # Theorems -/

/-- Helper: `String.join` distributes over list append. -/
theorem join_app (a b : List String) :
    String.join (a ++ b) = String.join a ++ String.join b := by
  apply String.ext
  simp [String.join_eq, String.data_append]

/-- C10: `richTextToPlainText` is a monoid homomorphism from rich-text
lists to strings: the empty list maps to the empty string, and the image
of a concatenation is the concatenation of the images. -/
theorem C10_theorem :
    richTextToPlainText [] = "" ∧
    ∀ a b : List RichTextItem,
      richTextToPlainText (a ++ b) = richTextToPlainText a ++ richTextToPlainText b := by
  refine ⟨rfl, fun a b => ?_⟩
  unfold richTextToPlainText
  rw [List.map_append, join_app]

/-- C7: TOC extraction flattens a well-formed outline depth-first in
pre-order: the outline `H1 > [H2a, H2b > H3]` gives exactly the four
headings at depths 0, 1, 1, 2 in that order, and in general an item
contributes its own heading (text the link's first text child, slug the
target with the leading fragment marker stripped) followed by its sublist
flattened one level deeper, followed by its right siblings. -/
theorem C7_theorem :
    extractTocHeadings outline0 = Except.ok
      [{ depth := 0, text := "H1", slug := "h1" },
       { depth := 1, text := "H2a", slug := "h2a" },
       { depth := 1, text := "H2b", slug := "h2b" },
       { depth := 2, text := "H3", slug := "h3" }] ∧
    ∀ (t : String) (ts : List String) (href : String) (sub : Option (List LItem))
      (rest : List LItem) (d : Nat),
      listElementToTree (LItem.mkI (t :: ts) href sub :: rest) d =
        { depth := d, text := t, slug := href.drop 1 } ::
          ((match sub with
            | none => []
            | some l => listElementToTree l (d + 1)) ++ listElementToTree rest d) := by
  constructor
  · simp [extractTocHeadings, outline0, listElementToTree]
    decide
  · intro t ts href sub rest d
    rw [listElementToTree.eq_def]
    simp

/-- C8: the cached filename is the URL hash followed by the extension of
the URL path component, case preserved and query ignored (the example URL
ending in `img.PNG?sig=abc` caches with extension `.PNG`), and the fixed
fallback `.jpg` is used when the path carries no extension. -/
theorem C8_theorem :
    (∀ hash : String → String,
      filenameOf hash "https://host/path/img.PNG?sig=abc" =
        hash "https://host/path/img.PNG?sig=abc" ++ ".PNG") ∧
    (∀ (hash : String → String) (url : String),
      extname (urlPathname url) = "" → filenameOf hash url = hash url ++ ".jpg") := by
  constructor
  · intro hash
    have h : extname (urlPathname "https://host/path/img.PNG?sig=abc") = ".PNG" := by decide
    simp [filenameOf, h]
  · intro hash url h
    simp [filenameOf, h]

/-- C8 witness: a URL whose path has no extension gets the `.jpg`
fallback. -/
theorem C8_witness :
    filenameOf h0 "https://host/download" = h0 "https://host/download" ++ ".jpg" :=
  C8_theorem.2 h0 "https://host/download" (by decide)

/-- C2 (amended): for a URL whose response is a direct success, the first
resolution with a cache miss issues exactly one request and writes the
hash-derived file, and any resolution that finds the hash-derived file on
disk returns the identical public path immediately, with no request and no
state change — within one render or starting from any later state. The
restriction to direct responses is forced by `C2_counterexample`. -/
theorem C2_theorem (hash : String → String) (env : Net) (url : String) (s : St)
    (n m : Nat) (hok : env url = Resp.okResp) :
    (filenameOf hash url ∉ s.disk →
      downloadImage hash env n url s =
        some ({ disk := s.disk ++ [filenameOf hash url],
                downloads := s.downloads ++ [url],
                imagePaths := s.imagePaths },
              .ok (publicPathOf (filenameOf hash url)))) ∧
    (∀ s2 : St, filenameOf hash url ∈ s2.disk →
      downloadImage hash env m url s2 =
        some (s2, .ok (publicPathOf (filenameOf hash url)))) := by
  constructor
  · intro hmiss
    rw [downloadImage.eq_def]
    simp [hmiss, hok]
  · intro s2 hmem
    rw [downloadImage.eq_def]
    simp [hmem]

/-- C2 witness: a concrete direct URL on the all-success environment,
downloaded once from the empty state, then found cached. -/
theorem C2_witness :
    downloadImage h0 envOk 0 "https://img.example/a.png" st0 =
      some ({ disk := [filenameOf h0 "https://img.example/a.png"],
              downloads := ["https://img.example/a.png"],
              imagePaths := [] },
            .ok (publicPathOf (filenameOf h0 "https://img.example/a.png"))) ∧
    downloadImage h0 envOk 0 "https://img.example/a.png"
        { disk := [filenameOf h0 "https://img.example/a.png"], downloads := [], imagePaths := [] } =
      some (({ disk := [filenameOf h0 "https://img.example/a.png"], downloads := [],
               imagePaths := [] } : St),
            .ok (publicPathOf (filenameOf h0 "https://img.example/a.png"))) :=
  ⟨by simpa using (C2_theorem h0 envOk "https://img.example/a.png" st0 0 0 rfl).1 (by decide),
   (C2_theorem h0 envOk "https://img.example/a.png" st0 0 0 rfl).2 _ (by simp)⟩

/-- C2 counterexample: a URL served through a redirect. The first
resolution requests both hops and caches the target's file; the claim says
a second resolution of the same source URL finds the cached file at the
hash-derived path and makes no network request, but the second resolution
misses the cache (the source URL's own hash file was never written) and
issues a fresh request for the source URL before hitting the cache at the
redirect target; its request log grows by one entry. -/
theorem C2_counterexample :
    downloadImage h0 envHop 1 "https://files.example/start" st0 =
      some ({ disk := [filenameOf h0 "https://files.example/pic.png"],
              downloads := ["https://files.example/start", "https://files.example/pic.png"],
              imagePaths := [] },
            .ok (publicPathOf (filenameOf h0 "https://files.example/pic.png"))) ∧
    downloadImage h0 envHop 1 "https://files.example/start"
        { disk := [filenameOf h0 "https://files.example/pic.png"],
          downloads := ["https://files.example/start", "https://files.example/pic.png"],
          imagePaths := [] } =
      some ({ disk := [filenameOf h0 "https://files.example/pic.png"],
              downloads := ["https://files.example/start", "https://files.example/pic.png",
                "https://files.example/start"],
              imagePaths := [] },
            .ok (publicPathOf (filenameOf h0 "https://files.example/pic.png"))) := by
  exact ⟨rfl, rfl⟩

/-- Helper: under the self-redirecting environment nothing is ever cached,
so the download recursion never finishes, whatever the fuel. -/
theorem downloadImage_loop (hash : String → String) (url : String) :
    ∀ (n : Nat) (s : St), s.disk = [] →
      downloadImage hash envLoop n url s = none := by
  intro n
  induction n with
  | zero =>
    intro s hdisk
    rw [downloadImage.eq_def]
    simp [hdisk, envLoop]
  | succ n ih =>
    intro s hdisk
    rw [downloadImage.eq_def]
    simp [hdisk, envLoop]
    exact ih _ rfl

/-- C4 counterexample: on a cyclic redirect chain the download operation
never terminates — no amount of fuel makes the source's unbounded redirect
recursion return — refuting the claim that redirects are followed at most
a small bounded number of times. -/
theorem C4_counterexample :
    ¬ ∃ (n : Nat) (r : St × Except String String),
      downloadImage h0 envLoop n "https://img.example/pic.png" st0 = some r := by
  rintro ⟨n, r, h⟩
  rw [downloadImage_loop h0 "https://img.example/pic.png" n st0 rfl] at h
  exact Option.noConfusion h

/-- C4 (amended): the source follows redirects by plain recursion with no
bound; the download terminates precisely on finite redirect chains — fuel
equal to the number of hops on the chain suffices — while a cyclic chain
diverges (`C4_counterexample`). -/
theorem C4_theorem (hash : String → String) (env : Net) :
    ∀ (n : Nat) (url : String) (s : St),
      chainTerminates env n url = true →
      ∃ r, downloadImage hash env n url s = some r := by
  intro n
  induction n with
  | zero =>
    intro url s h
    rw [downloadImage.eq_def]
    by_cases hmem : filenameOf hash url ∈ s.disk
    · simp [hmem]
    · rcases henv : env url with loc | _ | c | m | m
      · simp [chainTerminates, henv] at h
      all_goals simp [hmem, henv]
  | succ n ih =>
    intro url s h
    rw [downloadImage.eq_def]
    by_cases hmem : filenameOf hash url ∈ s.disk
    · simp [hmem]
    · rcases henv : env url with loc | _ | c | m | m
      · simp only [chainTerminates, henv] at h
        simp [hmem, henv]
        obtain ⟨r, hr⟩ := ih loc
          { disk := s.disk, downloads := s.downloads ++ [url], imagePaths := s.imagePaths } h
        exact ⟨r.1, r.2, by rw [hr]⟩
      all_goals simp [hmem, henv]

/-- C4 witness: a one-hop redirect chain terminates with fuel 1. -/
theorem C4_witness :
    ∃ r, downloadImage h0 envHop 1 "https://files.example/start" st0 = some r :=
  C4_theorem h0 envHop 1 "https://files.example/start" st0 (by decide)

/-- Helper: a download whose hash-derived file is on disk returns the
public path at once, with no request. -/
theorem downloadImage_hit (hash : String → String) (env : Net) (n : Nat) (url : String)
    (s : St) (hmem : filenameOf hash url ∈ s.disk) :
    downloadImage hash env n url s = some (s, .ok (publicPathOf (filenameOf hash url))) := by
  rw [downloadImage.eq_def]
  simp [hmem]

/-- Helper: a cache-missing download of a directly-served URL records one
request, writes the file, and returns the public path. -/
theorem downloadImage_miss_ok (hash : String → String) (env : Net) (n : Nat) (url : String)
    (s : St) (hok : env url = Resp.okResp) (hmiss : filenameOf hash url ∉ s.disk) :
    downloadImage hash env n url s =
      some ({ disk := s.disk ++ [filenameOf hash url],
              downloads := s.downloads ++ [url],
              imagePaths := s.imagePaths },
            .ok (publicPathOf (filenameOf hash url))) := by
  rw [downloadImage.eq_def]
  simp [hmiss, hok]

/-- Helper: unfolding of `listBlocks` on a non-empty record stream. -/
theorem listBlocks_cons (fi : Fetcher) (r : RawRecord) (rest : List RawRecord) (s : St) :
    listBlocks fi (r :: rest) s =
      match processRecord fi r s with
      | none => none
      | some (s1, .error e) => some (s1, .error e)
      | some (s1, .ok outs) =>
        match listBlocks fi rest s1 with
        | none => none
        | some (s2, .error e) => some (s2, .error e)
        | some (s2, .ok outRest) => some (s2, .ok (outs ++ outRest)) := by
  simp [listBlocks]

/-- Helper: unfolding of `processRecord` on a full block. -/
theorem processRecord_full (fi : Fetcher) (id : String) (hc : Bool) (p : RawPayload)
    (children : List RawRecord) (s : St) :
    processRecord fi (.fullRec id hc p children) s =
      match (if hc then listBlocks fi children s else some (s, .ok [])) with
      | none => none
      | some (s1, .error e) => some (s1, .error e)
      | some (s1, .ok kids) => transformBlock fi id hc p kids s1 := by
  simp [processRecord]

/-- Helper: block-list skeletons concatenate. -/
theorem outSkel_append (a b : List OutBlock) :
    outSkel (a ++ b) = outSkel a ++ outSkel b := by
  induction a with
  | nil => simp [outSkel]
  | cons x xs ih => simp [outSkel, ih]

/-- C9: when the tree fetch feeding the pipeline fails, or the pipeline
itself fails, `render` returns the explicit failure value, carrying no
HTML and no headings — never a partially populated result. -/
theorem C9_theorem (fi : Fetcher) (pipe : Pipe) (recs : List RawRecord) (s s1 : St) :
    (∀ e, listBlocks fi recs s = some (s1, .error e) →
      renderPage fi pipe recs s = some (s1, none)) ∧
    (∀ blocks e, listBlocks fi recs s = some (s1, .ok blocks) → pipe blocks = .error e →
      renderPage fi pipe recs s = some (s1, none)) := by
  constructor
  · intro e h
    simp [renderPage, h]
  · intro blocks e h hp
    simp [renderPage, h, hp]

/-- Helper: whatever the dispatch does to a full block, it yields exactly
one block with that block's id; its yielded payload carries the attached
children, except that the reshaped media payloads carry none. -/
theorem transformBlock_skel (fi : Fetcher) (id : String) (hc : Bool) (p : RawPayload)
    (kids : List OutBlock) (s1 s2 : St) (out : List OutBlock)
    (h : transformBlock fi id hc p kids s1 = some (s2, .ok out)) :
    outSkel out = [IdTree.node id (outSkel kids)] ∨
      (isMediaP p = true ∧ outSkel out = [IdTree.node id []]) := by
  cases p with
  | image f caption =>
    refine Or.inr ⟨rfl, ?_⟩
    simp only [transformBlock] at h
    split at h
    · exact Option.noConfusion h
    · simp only [Option.some.injEq, Prod.mk.injEq, Except.ok.injEq] at h
      obtain ⟨-, rfl⟩ := h
      simp [outSkel, outSkelB]
    · simp at h
  | file f caption =>
    simp only [transformBlock] at h
    split at h
    · split at h
      · exact Option.noConfusion h
      · refine Or.inr ⟨rfl, ?_⟩
        simp only [Option.some.injEq, Prod.mk.injEq, Except.ok.injEq] at h
        obtain ⟨-, rfl⟩ := h
        simp [outSkel, outSkelB]
      · refine Or.inl ?_
        simp only [Option.some.injEq, Prod.mk.injEq, Except.ok.injEq] at h
        obtain ⟨-, rfl⟩ := h
        simp [outSkel, outSkelB]
    · refine Or.inl ?_
      simp only [Option.some.injEq, Prod.mk.injEq, Except.ok.injEq] at h
      obtain ⟨-, rfl⟩ := h
      simp [outSkel, outSkelB]
  | video f caption =>
    refine Or.inr ⟨rfl, ?_⟩
    simp only [transformBlock, Option.some.injEq, Prod.mk.injEq, Except.ok.injEq] at h
    obtain ⟨-, rfl⟩ := h
    simp [outSkel, outSkelB]
  | pdf f caption =>
    refine Or.inr ⟨rfl, ?_⟩
    simp only [transformBlock, Option.some.injEq, Prod.mk.injEq, Except.ok.injEq] at h
    obtain ⟨-, rfl⟩ := h
    simp [outSkel, outSkelB]
  | callout icon body =>
    refine Or.inl ?_
    simp only [transformBlock] at h
    split at h
    · split at h
      · exact Option.noConfusion h
      · simp only [Option.some.injEq, Prod.mk.injEq, Except.ok.injEq] at h
        obtain ⟨-, rfl⟩ := h
        simp [outSkel, outSkelB]
      · simp only [Option.some.injEq, Prod.mk.injEq, Except.ok.injEq] at h
        obtain ⟨-, rfl⟩ := h
        simp [outSkel, outSkelB]
    · simp only [Option.some.injEq, Prod.mk.injEq, Except.ok.injEq] at h
      obtain ⟨-, rfl⟩ := h
      simp [outSkel, outSkelB]
  | other tag payloadData =>
    refine Or.inl ?_
    simp only [transformBlock, Option.some.injEq, Prod.mk.injEq, Except.ok.injEq] at h
    obtain ⟨-, rfl⟩ := h
    simp [outSkel, outSkelB]

/-- Helper: inversion of a successful `listBlocks` on a non-empty stream:
the head record yields its blocks from the initial state, the tail runs
from the resulting state, and the outputs concatenate. -/
theorem listBlocks_cons_ok (fi : Fetcher) (r : RawRecord) (rest : List RawRecord)
    (s s2 : St) (out : List OutBlock)
    (h : listBlocks fi (r :: rest) s = some (s2, .ok out)) :
    ∃ s1 outs outRest, processRecord fi r s = some (s1, .ok outs) ∧
      listBlocks fi rest s1 = some (s2, .ok outRest) ∧ out = outs ++ outRest := by
  rw [listBlocks_cons] at h
  rcases hp : processRecord fi r s with _ | ⟨sa, pres⟩
  · rw [hp] at h
    exact Option.noConfusion h
  · rw [hp] at h
    cases pres with
    | error e => simp at h
    | ok outs =>
      dsimp only at h
      rcases hr : listBlocks fi rest sa with _ | ⟨sb, rres⟩
      · rw [hr] at h
        simp at h
      · rw [hr] at h
        cases rres with
        | error e => simp at h
        | ok outRest =>
          simp at h
          obtain ⟨rfl, rfl⟩ := h
          exact ⟨sa, outs, outRest, rfl, hr, rfl⟩

/-- Helper: inversion of a successful `processRecord` on a full block:
children materialize first (trivially when `has_children` is false), then
the dispatch runs on the attached children. -/
theorem processRecord_full_ok (fi : Fetcher) (id : String) (hc : Bool) (p : RawPayload)
    (children : List RawRecord) (s s2 : St) (out : List OutBlock)
    (h : processRecord fi (.fullRec id hc p children) s = some (s2, .ok out)) :
    ∃ s1 kids,
      (if hc then listBlocks fi children s else some (s, .ok ([] : List OutBlock))) =
        some (s1, .ok kids) ∧
      transformBlock fi id hc p kids s1 = some (s2, .ok out) := by
  rw [processRecord_full] at h
  rcases hk : (if hc then listBlocks fi children s else some (s, .ok ([] : List OutBlock)))
      with _ | ⟨sa, kres⟩
  · rw [hk] at h
    exact Option.noConfusion h
  · rw [hk] at h
    cases kres with
    | error e => simp at h
    | ok kids =>
      simp only [] at h
      exact ⟨sa, kids, rfl, by simpa using h⟩

/-- Helper: the skeleton equality behind C6, by strong induction on the
size of the record stream. -/
theorem listBlocks_skel_aux (fi : Fetcher) :
    ∀ (n : Nat) (l : List RawRecord) (s s1 : St) (out : List OutBlock),
      sizeOf l ≤ n → wfList l = true →
      listBlocks fi l s = some (s1, Except.ok out) →
      outSkel out = rawSkel l := by
  intro n
  induction n with
  | zero =>
    intro l s s1 out hsz _ _
    exfalso
    cases l <;> simp_arith at hsz
  | succ n ih =>
    intro l s s1 out hsz hwf h
    cases l with
    | nil =>
      simp [listBlocks] at h
      obtain ⟨rfl, rfl⟩ := h
      simp [outSkel, rawSkel]
    | cons r rest =>
      obtain ⟨sa, outs, outRest, hp, hr, rfl⟩ := listBlocks_cons_ok fi r rest s s1 out h
      cases r with
      | notFull id =>
        simp [processRecord] at hp
        obtain ⟨h1, h2⟩ := hp
        subst h1
        subst h2
        have hszr : sizeOf rest ≤ n := by
          simp only [List.cons.sizeOf_spec, RawRecord.notFull.sizeOf_spec] at hsz
          omega
        simp only [wfList] at hwf
        simpa [rawSkel] using ih rest _ s1 outRest hszr hwf hr
      | fullRec id hc p children =>
        have hszr : sizeOf rest ≤ n := by
          simp only [List.cons.sizeOf_spec, RawRecord.fullRec.sizeOf_spec] at hsz
          omega
        have hszc : sizeOf children ≤ n := by
          simp only [List.cons.sizeOf_spec, RawRecord.fullRec.sizeOf_spec] at hsz
          omega
        simp only [wfList, Bool.and_eq_true] at hwf
        obtain ⟨⟨⟨hmedia, hhc⟩, hwfc⟩, hwfr⟩ := hwf
        obtain ⟨sk, kids, hk, ht⟩ := processRecord_full_ok fi id hc p children s sa outs hp
        have houtRest : outSkel outRest = rawSkel rest := ih rest sa s1 outRest hszr hwfr hr
        have hkids : outSkel kids = rawSkel children := by
          cases hc with
          | true =>
            simp only [if_pos] at hk
            exact ih children s sk kids hszc hwfc hk
          | false =>
            simp only [if_neg, Bool.false_eq_true, not_false_iff, ite_false] at hk
            have hce : children = [] := by
              simpa using hhc
            simp at hk
            obtain ⟨rfl, rfl⟩ := hk
            simp [outSkel, hce, rawSkel]
        rw [outSkel_append, houtRest]
        rcases transformBlock_skel fi id hc p kids sk sa outs ht with hsk | ⟨hm, hsk⟩
        · simp [rawSkel, hsk, hkids]
        · have hce : children = [] := by
            rcases Bool.or_eq_true_iff.mp hmedia with h1 | h1
            · simp [hm] at h1
            · simpa using h1
          subst hce
          simp [rawSkel, hsk]

/-- C6: a successful materialization of a well-formed record stream (full
and not-full records, arbitrarily nested, pagination pages concatenated in
received order) yields exactly the full blocks, skipping the not-full ones
without error, in received order at every level, with each yielded block
carrying the materialization of exactly the records under it. -/
theorem C6_theorem (fi : Fetcher) (recs : List RawRecord) (s s1 : St)
    (out : List OutBlock) (hwf : wfList recs = true)
    (h : listBlocks fi recs s = some (s1, Except.ok out)) :
    outSkel out = rawSkel recs :=
  listBlocks_skel_aux fi (sizeOf recs) recs s s1 out le_rfl hwf h

/-- C9 witness: a fetch throw on an image block aborts the render, and a
pipeline failure aborts the render, both with the bare failure value. -/
theorem C9_witness :
    renderPage fiBad pipe0 [recImg "i1" "https://img.example/a.png"] st0 = some (st0, none) ∧
    renderPage fiPure pipeBad [recImg "i1" "https://img.example/a.png"] st0 = some (st0, none) :=
  ⟨(C9_theorem fiBad pipe0 [recImg "i1" "https://img.example/a.png"] st0 st0).1 "boom"
      (by simp [recImg, listBlocks, processRecord, transformBlock, fiBad]),
   (C9_theorem fiPure pipeBad [recImg "i1" "https://img.example/a.png"] st0 st0).2
      [OutBlock.mk "i1" false (.imageStr "file" "/notion-images/w.png" [])] "pipeline failure"
      (by simp [recImg, listBlocks, processRecord, transformBlock, fiPure, FileObject.typeTag])
      rfl⟩

/-- C6 witness: a stream with a not-full record, a nested full block whose
children again contain a not-full record, and an image block, materialized
with an always-succeeding fetcher, yields exactly the full-block skeleton. -/
theorem C6_witness :
    outSkel
      [OutBlock.mk "a" true (.otherP "paragraph" "x"
        [OutBlock.mk "b" false (.otherP "text" "y" [])]),
       OutBlock.mk "c" false (.imageStr "file" "/notion-images/w.png" [])] =
    rawSkel
      [RawRecord.notFull "p0",
       .fullRec "a" true (.other "paragraph" "x")
         [.notFull "q", .fullRec "b" false (.other "text" "y") []],
       .fullRec "c" false (.image (.file "https://img.example/a.png") []) []] :=
  C6_theorem fiPure
    [RawRecord.notFull "p0",
     .fullRec "a" true (.other "paragraph" "x")
       [.notFull "q", .fullRec "b" false (.other "text" "y") []],
     .fullRec "c" false (.image (.file "https://img.example/a.png") []) []]
    st0 st0
    [OutBlock.mk "a" true (.otherP "paragraph" "x"
      [OutBlock.mk "b" false (.otherP "text" "y" [])]),
     OutBlock.mk "c" false (.imageStr "file" "/notion-images/w.png" [])]
    (by simp [wfList, isMediaP])
    (by simp [listBlocks, processRecord, transformBlock, fiPure, FileObject.typeTag])

/-- Helper: the renderer's `#fetchImage` never throws — whenever it
resolves, the result is a path (local on success, the remote URL as
fallback). -/
theorem fetchImageR_ok (hash : String → String) (env : Net) (fuel : Nat) :
    FetcherOk (fetchImageR hash env fuel) := by
  intro obj s r h
  simp only [fetchImageR] at h
  split at h
  · exact Option.noConfusion h
  · next s1 src heq =>
    injection h with h2
    exact ⟨_, src, h2.symm⟩
  · next s1 e heq =>
    injection h with h2
    exact ⟨s1, fileToUrl obj, h2.symm⟩

/-- Helper: with a never-throwing fetcher, the per-block dispatch never
produces an error (only the image arm can propagate one, and only from the
fetcher). -/
theorem transformBlock_fetchok (fi : Fetcher) (hfi : FetcherOk fi) (id : String)
    (hc : Bool) (p : RawPayload) (kids : List OutBlock) (s1 s2 : St) (e : String)
    (h : transformBlock fi id hc p kids s1 = some (s2, Except.error e)) : False := by
  cases p with
  | image f caption =>
    simp only [transformBlock] at h
    split at h
    · exact Option.noConfusion h
    · simp at h
    · next sx e2 heq =>
      obtain ⟨s3, v, hv⟩ := hfi f s1 _ heq
      simp at hv
  | file f caption =>
    simp only [transformBlock] at h
    split at h
    · split at h
      · exact Option.noConfusion h
      · simp at h
      · simp at h
    · simp at h
  | video f caption => simp [transformBlock] at h
  | pdf f caption => simp [transformBlock] at h
  | callout icon body =>
    simp only [transformBlock] at h
    split at h
    · split at h
      · exact Option.noConfusion h
      · simp at h
      · simp at h
    · simp at h
  | other tag payloadData => simp [transformBlock] at h

/-- Helper: with a never-throwing fetcher, materialization never returns
an error, by strong induction on the stream size. -/
theorem listBlocks_fetchok_aux (fi : Fetcher) (hfi : FetcherOk fi) :
    ∀ (n : Nat) (l : List RawRecord) (s s1 : St) (e : String),
      sizeOf l ≤ n → listBlocks fi l s = some (s1, Except.error e) → False := by
  intro n
  induction n with
  | zero =>
    intro l s s1 e hsz _
    cases l <;> simp_arith at hsz
  | succ n ih =>
    intro l s s1 e hsz h
    cases l with
    | nil => simp [listBlocks] at h
    | cons r rest =>
      rw [listBlocks_cons] at h
      rcases hp : processRecord fi r s with _ | ⟨sa, pres⟩
      · rw [hp] at h
        exact Option.noConfusion h
      · rw [hp] at h
        cases pres with
        | error ep =>
          cases r with
          | notFull id => simp [processRecord] at hp
          | fullRec id hc p children =>
            rw [processRecord_full] at hp
            rcases hk : (if hc then listBlocks fi children s
                else some (s, .ok ([] : List OutBlock))) with _ | ⟨sk, kres⟩
            · rw [hk] at hp
              exact Option.noConfusion hp
            · rw [hk] at hp
              cases kres with
              | error ek =>
                cases hc with
                | true =>
                  simp only [if_pos] at hk
                  have hszc : sizeOf children ≤ n := by
                    simp only [List.cons.sizeOf_spec, RawRecord.fullRec.sizeOf_spec] at hsz
                    omega
                  exact ih children s sk ek hszc hk
                | false => simp at hk
              | ok kids =>
                dsimp only at hp
                exact transformBlock_fetchok fi hfi id hc p kids sk sa ep hp
        | ok outs =>
          dsimp only at h
          rcases hr : listBlocks fi rest sa with _ | ⟨sb, rres⟩
          · rw [hr] at h
            exact Option.noConfusion h
          · rw [hr] at h
            cases rres with
            | error er =>
              have hszr : sizeOf rest ≤ n := by
                cases r <;>
                  simp only [List.cons.sizeOf_spec, RawRecord.notFull.sizeOf_spec,
                    RawRecord.fullRec.sizeOf_spec] at hsz <;> omega
              exact ih rest sa sb er hszr hr
            | ok outRest => simp at h

/-- C1 (amended): when the asset fetch for an image block fails, the
renderer's `#fetchImage` catches the error and falls back to the original
remote URL, so the failure never propagates: materialization with
`#fetchImage` never errors, and the render of the page completes with a
rendered result whenever the pipeline succeeds, rather than aborting. -/
theorem C1_theorem (hash : String → String) (env : Net) (fuel : Nat) :
    (∀ (obj : FileObject) (s s1 : St) (e : String),
      fileToImageAsset hash env fuel obj s = some (s1, .error e) →
      fetchImageR hash env fuel obj s = some (s1, .ok (fileToUrl obj))) ∧
    (∀ (recs : List RawRecord) (s : St) (pipe : Pipe) (s1 : St)
        (res : Except String (List OutBlock)),
      (∀ bs, ∃ html hds, pipe bs = .ok (html, hds)) →
      listBlocks (fetchImageR hash env fuel) recs s = some (s1, res) →
      ∃ bs entry, res = .ok bs ∧
        renderPage (fetchImageR hash env fuel) pipe recs s = some (s1, some entry)) := by
  constructor
  · intro obj s s1 e h
    simp [fetchImageR, h]
  · intro recs s pipe s1 res hpipe h
    cases res with
    | error e =>
      exact absurd h (fun hh =>
        listBlocks_fetchok_aux _ (fetchImageR_ok hash env fuel) (sizeOf recs)
          recs s s1 e le_rfl hh)
    | ok bs =>
      obtain ⟨html, hds, hok⟩ := hpipe bs
      exact ⟨bs, { html := html, headings := hds, imagePaths := s1.imagePaths }, rfl,
        by simp [renderPage, h, hok]⟩

/-- C1 witness: on an environment where every request fails, `#fetchImage`
returns the remote URL, and a page holding one image block renders. -/
theorem C1_witness :
    fetchImageR h0 envFail 1 (FileObject.file "https://img.example/a.png") st0 =
      some ({ disk := [], downloads := ["https://img.example/a.png"], imagePaths := [] },
        .ok (fileToUrl (FileObject.file "https://img.example/a.png"))) ∧
    ∃ bs entry,
      (Except.ok [OutBlock.mk "i1" false
          (.imageStr "file" "https://img.example/a.png" [])] :
        Except String (List OutBlock)) = .ok bs ∧
      renderPage (fetchImageR h0 envFail 1) pipe0
          [recImg "i1" "https://img.example/a.png"] st0 =
        some (({ disk := [], downloads := ["https://img.example/a.png"],
                 imagePaths := [] } : St), some entry) :=
  ⟨(C1_theorem h0 envFail 1).1 (FileObject.file "https://img.example/a.png") st0
      _ "socket hang up" rfl,
   (C1_theorem h0 envFail 1).2 [recImg "i1" "https://img.example/a.png"] st0 pipe0
      _ _ (fun bs => ⟨"<page>", [], rfl⟩)
      (by simp [recImg, listBlocks, processRecord, transformBlock, fetchImageR,
        fileToImageAsset, downloadImage, envFail, FileObject.typeTag, fileToUrl, st0])⟩

/-- C1 counterexample: the claim says a failed image fetch aborts the
whole page render; in the code the render succeeds. On an environment
where the download of `https://img.example/a.png` fails at the socket, the
asset fetch for the lone image block returns the error, yet the render
returns a rendered entry (with the image falling back to the remote URL
and no image path recorded) — not the failure value. -/
theorem C1_counterexample :
    fileToImageAsset h0 envFail 1 (FileObject.file "https://img.example/a.png") st0 =
      some ({ disk := [], downloads := ["https://img.example/a.png"], imagePaths := [] },
        .error "socket hang up") ∧
    renderPage (fetchImageR h0 envFail 1) pipe0
        [recImg "i1" "https://img.example/a.png"] st0 =
      some ({ disk := [], downloads := ["https://img.example/a.png"], imagePaths := [] },
        some { html := "<page>", headings := [], imagePaths := [] }) := by
  constructor
  · rfl
  · simp [renderPage, recImg, listBlocks, processRecord, transformBlock, fetchImageR,
      fileToImageAsset, downloadImage, envFail, FileObject.typeTag, fileToUrl, pipe0, st0]

/-- C3 (amended): for a `file` block whose URL matches the image-extension
pattern, a hosted (`file`-type) reference is replaced with the resolved
local path, but an `external` reference keeps its original URL in the
yielded block (the asset is still fetched, yet not substituted); a `file`
block whose URL does not match the pattern is passed through unchanged,
with its children attached. -/
theorem C3_theorem (fi : Fetcher) (id u : String) (caption : List String)
    (children : List RawRecord) (s sk s2 : St) (kids : List OutBlock) (p : String)
    (hk : listBlocks fi children s = some (sk, .ok kids)) :
    (isImageUrl u = true → fi (FileObject.file u) sk = some (s2, .ok p) →
      processRecord fi (.fullRec id true (.file (.file u) caption) children) s =
        some (s2, .ok [OutBlock.mk id true (.fileStr "file" p caption)])) ∧
    (isImageUrl u = true → fi (FileObject.external u) sk = some (s2, .ok p) →
      processRecord fi (.fullRec id true (.file (.external u) caption) children) s =
        some (s2, .ok [OutBlock.mk id true (.fileStr "external" u caption)])) ∧
    (∀ f : FileObject, isImageUrl (fileToUrl f) = false →
      processRecord fi (.fullRec id true (.file f caption) children) s =
        some (sk, .ok [OutBlock.mk id true (.fileObj f caption kids)])) := by
  refine ⟨fun him hfi => ?_, fun him hfi => ?_, fun f him => ?_⟩
  · rw [processRecord_full]
    simp [hk, transformBlock, fileToUrl, FileObject.typeTag, him, hfi]
  · rw [processRecord_full]
    simp [hk, transformBlock, fileToUrl, FileObject.typeTag, him, hfi]
  · rw [processRecord_full]
    simp [hk, transformBlock, him]

/-- C3 witness: with an always-succeeding fetcher, a hosted image-like
file block is rewritten to the local path, an external image-like file
block keeps its URL, and a non-image file block passes through. -/
theorem C3_witness :
    processRecord fiPure
        (.fullRec "f1" true (.file (.file "https://img.example/a.png") []) []) st0 =
      some (st0, .ok [OutBlock.mk "f1" true (.fileStr "file" "/notion-images/w.png" [])]) ∧
    processRecord fiPure
        (.fullRec "f2" true (.file (.external "https://img.example/a.png") []) []) st0 =
      some (st0, .ok [OutBlock.mk "f2" true
        (.fileStr "external" "https://img.example/a.png" [])]) ∧
    processRecord fiPure
        (.fullRec "f3" true (.file (.file "https://docs.example/a.pdf") []) []) st0 =
      some (st0, .ok [OutBlock.mk "f3" true
        (.fileObj (.file "https://docs.example/a.pdf") [] [])]) :=
  ⟨(C3_theorem fiPure "f1" "https://img.example/a.png" [] [] st0 st0 st0 []
      "/notion-images/w.png" (by simp [listBlocks])).1 (by decide) rfl,
   (C3_theorem fiPure "f2" "https://img.example/a.png" [] [] st0 st0 st0 []
      "/notion-images/w.png" (by simp [listBlocks])).2.1 (by decide) rfl,
   (C3_theorem fiPure "f3" "https://img.example/a.png" [] [] st0 st0 st0 []
      "/notion-images/w.png" (by simp [listBlocks])).2.2
      (.file "https://docs.example/a.pdf") (by decide)⟩

/-- C3 counterexample: an external `file` block whose URL matches the
image pattern. The fetch succeeds — the asset is downloaded and its local
path recorded — yet the yielded block still references the original
external URL, which differs from the resolved local path, refuting the
claim that external references are replaced like hosted ones. -/
theorem C3_counterexample :
    listBlocks (fetchImageR h0 envOk 1)
        [recFileExt "f1" "https://pics.example/a.png"] st0 =
      some ({ disk := [filenameOf h0 "https://pics.example/a.png"],
              downloads := ["https://pics.example/a.png"],
              imagePaths := [publicPathOf (filenameOf h0 "https://pics.example/a.png")] },
        .ok [OutBlock.mk "f1" false (.fileStr "external" "https://pics.example/a.png" [])]) ∧
    "https://pics.example/a.png" ≠
      publicPathOf (filenameOf h0 "https://pics.example/a.png") := by
  constructor
  · simp [recFileExt, listBlocks, processRecord, transformBlock, fetchImageR,
      fileToImageAsset, downloadImage, envOk, FileObject.typeTag, fileToUrl, st0,
      (by decide : isImageUrl "https://pics.example/a.png" = true)]
  · decide

/-- Helper: `#fetchImage` on a cache hit returns the public path and
appends it to the image paths, leaving disk and request log unchanged. -/
theorem fetchImageR_hit (hash : String → String) (env : Net) (fuel : Nat)
    (f : FileObject) (s : St) (hmem : filenameOf hash (fileToUrl f) ∈ s.disk) :
    fetchImageR hash env fuel f s =
      some ({ s with imagePaths :=
          s.imagePaths ++ [publicPathOf (filenameOf hash (fileToUrl f))] },
        .ok (publicPathOf (filenameOf hash (fileToUrl f)))) := by
  simp only [fetchImageR, fileToImageAsset]
  rw [downloadImage_hit hash env fuel (fileToUrl f) s hmem]

/-- Helper: `#fetchImage` on a cache miss of a directly-served URL records
the request, writes the file, and appends the public path. -/
theorem fetchImageR_miss_ok (hash : String → String) (env : Net) (fuel : Nat)
    (f : FileObject) (s : St) (hok : env (fileToUrl f) = Resp.okResp)
    (hmiss : filenameOf hash (fileToUrl f) ∉ s.disk) :
    fetchImageR hash env fuel f s =
      some ({ disk := s.disk ++ [filenameOf hash (fileToUrl f)],
              downloads := s.downloads ++ [fileToUrl f],
              imagePaths := s.imagePaths ++ [publicPathOf (filenameOf hash (fileToUrl f))] },
        .ok (publicPathOf (filenameOf hash (fileToUrl f)))) := by
  simp only [fetchImageR, fileToImageAsset]
  rw [downloadImage_miss_ok hash env fuel (fileToUrl f) s hok hmiss]

/-- C5 (amended): `imagePaths` records the path of every successful asset
resolution in call order, without deduplication: a page with two image
blocks referencing the same directly-served URL renders with that URL's
local path appearing twice (once per resolution), whether or not the asset
was already cached. -/
theorem C5_theorem (hash : String → String) (env : Net) (fuel : Nat)
    (url id1 id2 : String) (cap1 cap2 : List String) (s : St)
    (hok : env url = Resp.okResp) :
    ∃ s1 : St,
      listBlocks (fetchImageR hash env fuel)
          [.fullRec id1 false (.image (.file url) cap1) [],
           .fullRec id2 false (.image (.file url) cap2) []] s =
        some (s1, .ok
          [OutBlock.mk id1 false
            (.imageStr "file" (publicPathOf (filenameOf hash url)) cap1),
           OutBlock.mk id2 false
            (.imageStr "file" (publicPathOf (filenameOf hash url)) cap2)]) ∧
      s1.imagePaths = s.imagePaths ++
        [publicPathOf (filenameOf hash url), publicPathOf (filenameOf hash url)] := by
  by_cases hmem : filenameOf hash url ∈ s.disk
  · have h1 := fetchImageR_hit hash env fuel (.file url) s (by simpa [fileToUrl] using hmem)
    have h2 := fetchImageR_hit hash env fuel (.file url)
      { s with imagePaths := s.imagePaths ++ [publicPathOf (filenameOf hash url)] }
      (by simpa [fileToUrl] using hmem)
    refine ⟨{ s with imagePaths := s.imagePaths ++
        [publicPathOf (filenameOf hash url), publicPathOf (filenameOf hash url)] }, ?_, by simp⟩
    simp [listBlocks, processRecord, transformBlock, FileObject.typeTag, fileToUrl,
      h1, h2]
  · have h1 := fetchImageR_miss_ok hash env fuel (.file url)
      s (by simpa [fileToUrl] using hok) (by simpa [fileToUrl] using hmem)
    have h2 := fetchImageR_hit hash env fuel (.file url)
      { disk := s.disk ++ [filenameOf hash url],
        downloads := s.downloads ++ [url],
        imagePaths := s.imagePaths ++ [publicPathOf (filenameOf hash url)] }
      (by simp [fileToUrl])
    refine ⟨{ disk := s.disk ++ [filenameOf hash url],
              downloads := s.downloads ++ [url],
              imagePaths := s.imagePaths ++
                [publicPathOf (filenameOf hash url), publicPathOf (filenameOf hash url)] },
      ?_, by simp⟩
    simp [listBlocks, processRecord, transformBlock, FileObject.typeTag, fileToUrl,
      h1, h2]

/-- C5 witness: the two-image page on the all-success environment from the
empty state records the path twice. -/
theorem C5_witness :
    ∃ s1 : St,
      listBlocks (fetchImageR h0 envOk 1)
          [.fullRec "i1" false (.image (.file "https://img.example/pic.png") []) [],
           .fullRec "i2" false (.image (.file "https://img.example/pic.png") []) []] st0 =
        some (s1, .ok
          [OutBlock.mk "i1" false
            (.imageStr "file" (publicPathOf (filenameOf h0 "https://img.example/pic.png")) []),
           OutBlock.mk "i2" false
            (.imageStr "file" (publicPathOf (filenameOf h0 "https://img.example/pic.png")) [])]) ∧
      s1.imagePaths = st0.imagePaths ++
        [publicPathOf (filenameOf h0 "https://img.example/pic.png"),
         publicPathOf (filenameOf h0 "https://img.example/pic.png")] :=
  C5_theorem h0 envOk 1 "https://img.example/pic.png" "i1" "i2" [] [] st0 rfl

/-- C5 counterexample: rendering a page with two image blocks referencing
the same URL produces `imagePaths` holding the same local path twice — the
claimed each-distinct-path-exactly-once property fails, since the list is
not duplicate-free. -/
theorem C5_counterexample :
    renderPage (fetchImageR h0 envOk 1) pipe0
        [recImg "i1" "https://img.example/pic.png",
         recImg "i2" "https://img.example/pic.png"] st0 =
      some ({ disk := [filenameOf h0 "https://img.example/pic.png"],
              downloads := ["https://img.example/pic.png"],
              imagePaths := [publicPathOf (filenameOf h0 "https://img.example/pic.png"),
                             publicPathOf (filenameOf h0 "https://img.example/pic.png")] },
        some { html := "<page>", headings := [],
               imagePaths := [publicPathOf (filenameOf h0 "https://img.example/pic.png"),
                              publicPathOf (filenameOf h0 "https://img.example/pic.png")] }) ∧
    ¬ List.Nodup [publicPathOf (filenameOf h0 "https://img.example/pic.png"),
                  publicPathOf (filenameOf h0 "https://img.example/pic.png")] := by
  constructor
  · simp [renderPage, recImg, listBlocks, processRecord, transformBlock, fetchImageR,
      fileToImageAsset, downloadImage, envOk, FileObject.typeTag, fileToUrl, pipe0, st0]
  · simp
